import Mathlib

/-!
# StudyBro-Admin: verification of the leaderboard aggregation engine and
  surrounding routes

Shallow embedding of the TypeScript source of the StudyBro admin dashboard:

* `src/app/api/admin/users/route.ts` — leaderboard `GET` (window resolution,
  per-source aggregation, union, sort, standard-competition ranking,
  pagination) and CSV-export `POST`;
* `src/app/api/admin/dashboard/route.ts` — `totalFocusMinutes` statistic;
* `src/lib/auth.ts` — `verifySession`.

JavaScript `Map`s are modelled as insertion-ordered association lists
(`Map.set` updates a present key in place and appends an absent one;
iteration follows insertion order), JavaScript `Set`s as first-occurrence
deduplicated lists, and nullable fields as `Option`.  Timestamps are natural
numbers; the store's `gte` filter is `start ≤ t`.
-/

namespace StudyBro

/-- JS `Map.prototype.get`: the value bound to `k`, if any. -/
def alistGet {α : Type} (m : List (String × α)) (k : String) : Option α :=
  match m with
  | [] => none
  | (k', v) :: rest => if k' = k then some v else alistGet rest k

/-- JS `Map.prototype.set`: update `k` in place when present (keeping its
position in iteration order), append `(k, v)` otherwise. -/
def alistSet {α : Type} (m : List (String × α)) (k : String) (v : α) :
    List (String × α) :=
  match m with
  | [] => [(k, v)]
  | (k', v') :: rest =>
      if k' = k then (k, v) :: rest else (k', v') :: alistSet rest k v

/-- JS `Map.prototype.keys()` in iteration order. -/
def alistKeys {α : Type} (m : List (String × α)) : List String :=
  m.map Prod.fst

/-- One step of JS `Set` construction: keep the first occurrence of a key. -/
def setAdd (acc : List String) (k : String) : List String :=
  if k ∈ acc then acc else acc ++ [k]

/-- `new Set([...])`: first-occurrence deduplication, insertion order kept
(the order `Array.from` then observes). -/
def jsSetOfList (l : List String) : List String :=
  l.foldl setAdd []

/-- JS `x || null` on a nullable string: both `null` and the falsy `""`
collapse to `null`. -/
def strOrNull (o : Option String) : Option String :=
  match o with
  | some s => if s = "" then none else some s
  | none => none

/-- `Math.round(n / 60)` for a natural number of seconds `n`: JS rounds half
toward `+∞`, so for `n ≥ 0` the result is `⌊(n + 30) / 60⌋`. -/
def mathRoundDiv60 (n : Nat) : Nat :=
  (n + 30) / 60

/-! ## Data model (rows read from the external store) -/

/-- A row of `profiles` (`select id, name, avatar_url`). -/
structure Profile where
  id : String
  name : Option String
  avatar_url : Option String
deriving DecidableEq, Repr

/-- A row of `sessions`.  `duration` is seconds and nullable; `created_at`
is the creation timestamp the window filter applies to. -/
structure SessionRow where
  user_id : String
  duration : Option Nat
  mode : String
  created_at : Nat
deriving DecidableEq, Repr

/-- A row of `tasks`.  The leaderboard window filter applies to
`updated_at`. -/
structure TaskRow where
  user_id : String
  status : String
  updated_at : Nat
deriving DecidableEq, Repr

/-- A row of `streaks` (`select user_id, current`). -/
structure StreakRow where
  user_id : String
  current : Option Nat
deriving DecidableEq, Repr

/-- The raw tables a leaderboard request reads. -/
structure LeaderboardInput where
  profiles : List Profile
  sessions : List SessionRow
  tasks : List TaskRow
  streaks : List StreakRow
deriving Repr

/-- A leaderboard entry as built by the route. -/
structure Entry where
  user_id : String
  name : Option String
  avatar_url : Option String
  focus_time_minutes : Nat
  tasks_completed : Nat
  current_streak : Nat
  rank : Nat
deriving DecidableEq, Repr

/-- The JSON body of a leaderboard `GET` response. -/
structure LeaderboardResult where
  entries : List Entry
  period : String
  metric : String
  total : Nat
deriving DecidableEq, Repr

/-! ## Window resolution (`getDateRange`) -/

/-- The three local-midnight boundaries `getDateRange` derives from `new
Date()` (today's midnight, the most recent Sunday's midnight, the first of
the month).  The calendar arithmetic itself (`setHours`, `setDate`,
`getDay`) is JS `Date` library behaviour; we abstract the three computed
boundaries and keep the branch structure of the function. -/
structure Now where
  todayStart : Nat
  weekStart : Nat
  monthStart : Nat
deriving Repr

/-- `getDateRange`: `today`/`week`/`month` return their boundary; `all` and
every other string fall to the `default` case and return no lower bound. -/
def getDateRange (period : String) (now : Now) : Option Nat :=
  if period = "today" then some now.todayStart
  else if period = "week" then some now.weekStart
  else if period = "month" then some now.monthStart
  else none

/-- The store's `gte('…', start.toISOString())` filter, applied only when a
start boundary exists (inclusive lower bound). -/
def inWindow (start : Option Nat) (t : Nat) : Bool :=
  match start with
  | none => true
  | some s => decide (s ≤ t)

/-! ## Per-source queries and aggregation maps -/

/-- The sessions query: `eq('mode', 'work')` plus the optional
`gte('created_at', start)`. -/
def sessionsQuery (start : Option Nat) (rows : List SessionRow) :
    List SessionRow :=
  rows.filter (fun s => s.mode = "work" && inWindow start s.created_at)

/-- The tasks query: `eq('status', 'done')` plus the optional
`gte('updated_at', start)`. -/
def tasksQuery (start : Option Nat) (rows : List TaskRow) : List TaskRow :=
  rows.filter (fun t => t.status = "done" && inWindow start t.updated_at)

/-- `focusTimeMap`: fold of
`focusTimeMap.set(s.user_id, (get ?? 0) + (s.duration || 0))`. -/
def buildFocusTimeMap (rows : List SessionRow) : List (String × Nat) :=
  rows.foldl
    (fun m s =>
      alistSet m s.user_id ((alistGet m s.user_id).getD 0 + s.duration.getD 0))
    []

/-- `tasksMap`: fold of `tasksMap.set(t.user_id, (get ?? 0) + 1)`. -/
def buildTasksMap (rows : List TaskRow) : List (String × Nat) :=
  rows.foldl
    (fun m t => alistSet m t.user_id ((alistGet m t.user_id).getD 0 + 1))
    []

/-- `streakMap`: fold of `streakMap.set(s.user_id, s.current || 0)`. -/
def buildStreakMap (rows : List StreakRow) : List (String × Nat) :=
  rows.foldl (fun m s => alistSet m s.user_id (s.current.getD 0)) []

/-- `new Map(profiles.map(p => [p.id, p]))`. -/
def buildProfilesMap (profiles : List Profile) : List (String × Profile) :=
  profiles.foldl (fun m p => alistSet m p.id p) []

/-! ## Union, entry build, sort, ranking, pagination -/

/-- The candidate id set: `new Set([...focus, ...tasks, ...streak])`,
iterated in insertion order by `Array.from`. -/
def unionUserIds (focusTimeMap tasksMap streakMap : List (String × Nat)) :
    List String :=
  jsSetOfList (alistKeys focusTimeMap ++ alistKeys tasksMap ++
    alistKeys streakMap)

/-- One entry of the `entries` array build (rank initialised to 0). -/
def mkEntry (profilesMap : List (String × Profile))
    (focusTimeMap tasksMap streakMap : List (String × Nat))
    (userId : String) : Entry :=
  let profile := alistGet profilesMap userId
  { user_id := userId
    name := strOrNull (profile.bind Profile.name)
    avatar_url := strOrNull (profile.bind Profile.avatar_url)
    focus_time_minutes := mathRoundDiv60 ((alistGet focusTimeMap userId).getD 0)
    tasks_completed := (alistGet tasksMap userId).getD 0
    current_streak := (alistGet streakMap userId).getD 0
    rank := 0 }

/-- The numeric key the sort comparator reads: the `switch (metric)` with
cases `focus_time`, `tasks`, `streak`; the `default` branch returns `0`
from every comparison, which is the constant key `0`. -/
def sortKey (metric : String) (e : Entry) : Nat :=
  if metric = "focus_time" then e.focus_time_minutes
  else if metric = "tasks" then e.tasks_completed
  else if metric = "streak" then e.current_streak
  else 0

/-- Insert into a descending-sorted list, after every element of strictly
larger key and before equal-keyed ones inserted earlier — the unique
stable placement. -/
def insertDesc (key : Entry → Nat) (e : Entry) : List Entry → List Entry
  | [] => [e]
  | x :: xs =>
      if key e < key x then x :: insertDesc key e xs else e :: x :: xs

/-- `entries.sort(comparator)` where the comparator is
`(a, b) => key(b) - key(a)`.  The ECMAScript spec pins the result of a
consistent comparator down to the unique stable descending order, which
this stable insertion sort computes. -/
def sortDesc (key : Entry → Nat) (l : List Entry) : List Entry :=
  l.foldr (insertDesc key) []

/-- The value the rank-assignment loop reads: the nested ternary
`metric === 'focus_time' ? … : metric === 'tasks' ? … : current_streak`. -/
def rankValue (metric : String) (e : Entry) : Nat :=
  if metric = "focus_time" then e.focus_time_minutes
  else if metric = "tasks" then e.tasks_completed
  else e.current_streak

/-- The body of `entries.map((entry, index) => …)` assigning ranks:
`index` is the 0-based position, `currentRank` and `previousValue` the
loop-carried state. -/
def assignRanksAux (metric : String) :
    List Entry → Nat → Nat → Option Nat → List Entry
  | [], _, _, _ => []
  | e :: rest, index, currentRank, previousValue =>
      let v := rankValue metric e
      let r :=
        match previousValue with
        | some pv => if v ≠ pv then index + 1 else currentRank
        | none => currentRank
      { e with rank := r } :: assignRanksAux metric rest (index + 1) r (some v)

/-- Rank assignment: `currentRank = 1`, `previousValue = null`, then the
indexed map. -/
def assignRanks (metric : String) (entries : List Entry) : List Entry :=
  assignRanksAux metric entries 0 1 none

/-- The unranked entry list in union-traversal order (the state of the
`entries` variable right after the build, before the sort). -/
def builtEntries (start : Option Nat) (inp : LeaderboardInput) :
    List Entry :=
  let focusTimeMap := buildFocusTimeMap (sessionsQuery start inp.sessions)
  let tasksMap := buildTasksMap (tasksQuery start inp.tasks)
  let streakMap := buildStreakMap inp.streaks
  (unionUserIds focusTimeMap tasksMap streakMap).map
    (mkEntry (buildProfilesMap inp.profiles) focusTimeMap tasksMap streakMap)

/-- The fully ranked (unpaginated) entry sequence: build, sort, assign
ranks. -/
def rankedEntries (metric : String) (start : Option Nat)
    (inp : LeaderboardInput) : List Entry :=
  assignRanks metric (sortDesc (sortKey metric) (builtEntries start inp))

/-- The leaderboard `GET` handler after session validation:
`entries.slice(offset, offset + limit)` over the ranked sequence, `total`
the unsliced length. -/
def computeLeaderboard (period metric : String) (limit offset : Nat)
    (now : Now) (inp : LeaderboardInput) : LeaderboardResult :=
  let start := getDateRange period now
  let ranked := rankedEntries metric start inp
  { entries := (ranked.drop offset).take limit
    period := period
    metric := metric
    total := ranked.length }

/-! ## CSV exporter (`POST` handler of the leaderboard route)

`csv-stringify` with `header: true` and the fixed `columns` list emits the
header row, then one record per object, `\n`-terminated, quoting a field
only when it contains a delimiter, a quote or a record delimiter and
doubling embedded quotes — the library's defaults. -/

/-- Whether a field must be quoted: it contains the delimiter, a quote or
a record delimiter. -/
def csvNeedsQuote (s : String) : Bool :=
  s.data.any (fun c => c = ',' || c = '"' || c = '\n' || c = '\r')

/-- Quote doubling: every embedded `"` becomes `""`. -/
def csvDoubleQuotes (s : String) : String :=
  String.mk (s.data.foldr
    (fun c acc => if c = '"' then '"' :: '"' :: acc else c :: acc) [])

/-- Standard CSV field quoting as `csv-stringify` applies it by default:
quote only when needed, doubling embedded quotes. -/
def csvField (s : String) : String :=
  if csvNeedsQuote s then "\"" ++ csvDoubleQuotes s ++ "\"" else s

/-- One CSV record: comma-joined fields, `\n`-terminated. -/
def csvRecord (fields : List String) : String :=
  String.intercalate "," (fields.map csvField) ++ "\n"

/-- The column headers passed to `stringify`. -/
def csvColumns : List String :=
  ["Rank", "Name", "Focus Time (min)", "Tasks Completed", "Current Streak"]

/-- `entry.name || 'Unknown'`: both `null` and the falsy `""` render as the
literal `Unknown`. -/
def nameOrUnknown (name : Option String) : String :=
  match name with
  | some s => if s = "" then "Unknown" else s
  | none => "Unknown"

/-- The projection of one entry performed by `entries.map(...)` in the
`POST` handler, in the fixed column order. -/
def csvEntryFields (e : Entry) : List String :=
  [toString e.rank, nameOrUnknown e.name, toString e.focus_time_minutes,
    toString e.tasks_completed, toString e.current_streak]

/-- The CSV body the export route streams back: header row, then one
record per entry. -/
def exportCsv (entries : List Entry) : String :=
  csvRecord csvColumns ++
    String.join (entries.map (fun e => csvRecord (csvEntryFields e)))

/-! ## Dashboard statistic (`dashboard/route.ts`) -/

/-- `totalFocusMinutes`: over the `mode = 'work'` sessions,
`reduce((sum, s) => sum + Math.floor((s.duration || 0) / 60), 0)` —
truncating division applied per session, before the sum. -/
def dashboardTotalFocusMinutes (rows : List SessionRow) : Nat :=
  (rows.filter (fun s => s.mode = "work")).foldl
    (fun sum s => sum + s.duration.getD 0 / 60) 0

/-! ## Session validation (`lib/auth.ts`) -/

/-- The claims `createSession` signs into a token. -/
structure SessionPayload where
  role : String
  iat : Nat
  exp : Nat
deriving DecidableEq, Repr

/-- Modelled from the spec: an admin-session bearer token as `jose`'s
`jwtVerify` examines it — whether it parses as a JWT at all, whether its
HMAC signature verifies against the configured secret, and the `exp`
claim it carries.  The cryptographic library itself is outside the
repository; the spec describes its contract as "verifies signature and
expiry". -/
structure JWTToken where
  malformed : Bool
  signatureValid : Bool
  payload : SessionPayload
deriving DecidableEq, Repr

/-- Modelled from the spec: `jose.jwtVerify` succeeds — returning the
decoded payload — exactly when the token parses, its signature verifies
and the current time is still before its `exp` claim; every failure is a
thrown exception, represented as `none`. -/
def jwtVerify (now : Nat) (t : JWTToken) : Option SessionPayload :=
  if !t.malformed && t.signatureValid && decide (now < t.payload.exp)
  then some t.payload
  else none

/-- `verifySession`: `try { return (await jwtVerify(...)).payload } catch {
return null }` — the decoded claims on success, `null` on any failure. -/
def verifySession (now : Nat) (t : JWTToken) : Option SessionPayload :=
  match jwtVerify now t with
  | some payload => some payload
  | none => none

/-! ## Spec-side definitions (for refinement claims)

These follow the spec's words, not the source, and exist only to be
compared with the source-derived definitions above. -/

/-- Spec-side ranking, tail: `prevVal`/`prevRank` are the preceding
entry's value and rank, `pos` the current entry's 1-based position.  A
value differing from the preceding one gets rank `pos`; a tied one
inherits `prevRank`. -/
def specRanksGo (prevVal prevRank pos : Nat) : List Nat → List Nat
  | [] => []
  | v :: vs =>
      let r := if v ≠ prevVal then pos else prevRank
      r :: specRanksGo v r (pos + 1) vs

/-- Spec-side standard competition ranking over the sorted metric values:
the first entry gets rank 1, then `specRanksGo`. -/
def specRanks : List Nat → List Nat
  | [] => []
  | v :: vs => 1 :: specRanksGo v 1 2 vs

/-- The raw seconds recorded for one user: the sum of the (nullable)
durations of that user's rows. -/
def sumDurations (u : String) (rows : List SessionRow) : Nat :=
  ((rows.filter (fun s => s.user_id = u)).map (fun s => s.duration.getD 0)).sum

/-! ## Concrete inputs for the worked examples -/

/-- Five streak rows with currents 10, 10, 8, 5, 5 — the spec's ranking
example. -/
def sampleStreaks : List StreakRow :=
  [⟨"a", some 10⟩, ⟨"b", some 10⟩, ⟨"c", some 8⟩, ⟨"d", some 5⟩,
    ⟨"e", some 5⟩]

/-- An input whose only data are `sampleStreaks`. -/
def sampleInput : LeaderboardInput :=
  { profiles := [], sessions := [], tasks := [], streaks := sampleStreaks }

/-- A fixed clock for the examples; `period = "all"` ignores it. -/
def sampleNow : Now :=
  { todayStart := 0, weekStart := 0, monthStart := 0 }

/-- Three 50-second work sessions of one user — the spec's rounding
example. -/
def focusSessions : List SessionRow :=
  [⟨"u", some 50, "work", 5⟩, ⟨"u", some 50, "work", 6⟩,
    ⟨"u", some 50, "work", 7⟩]

/-- An input whose only data are `focusSessions`. -/
def focusInput : LeaderboardInput :=
  { profiles := [], sessions := focusSessions, tasks := [], streaks := [] }

/-! ## Lemmas: association lists and JS sets -/

theorem alistGet_set_self {α : Type} (m : List (String × α)) (k : String)
    (v : α) : alistGet (alistSet m k v) k = some v := by
  induction m with
  | nil => simp [alistSet, alistGet]
  | cons p rest ih =>
      obtain ⟨k', v'⟩ := p
      by_cases h : k' = k
      · simp [alistSet, alistGet, h]
      · simp [alistSet, alistGet, h, ih]

theorem alistGet_set_ne {α : Type} (m : List (String × α)) (k u : String)
    (v : α) (h : u ≠ k) : alistGet (alistSet m k v) u = alistGet m u := by
  induction m with
  | nil => simp [alistSet, alistGet, Ne.symm h]
  | cons p rest ih =>
      obtain ⟨k', v'⟩ := p
      by_cases hk : k' = k
      · subst hk
        simp [alistSet, alistGet, Ne.symm h]
      · simp [alistSet, alistGet, hk, ih]

theorem mem_alistKeys_set {α : Type} (m : List (String × α)) (k u : String)
    (v : α) : u ∈ alistKeys (alistSet m k v) ↔ u ∈ alistKeys m ∨ u = k := by
  induction m with
  | nil => simp [alistSet, alistKeys, eq_comm]
  | cons p rest ih =>
      obtain ⟨k', v'⟩ := p
      by_cases h : k' = k
      · subst h
        simp [alistSet, alistKeys, eq_comm]
        tauto
      · simp only [alistSet, if_neg h, alistKeys, List.map_cons,
          List.mem_cons] at *
        rw [ih]
        tauto

theorem alistGet_eq_none {α : Type} (m : List (String × α)) (u : String)
    (h : u ∉ alistKeys m) : alistGet m u = none := by
  induction m with
  | nil => rfl
  | cons p rest ih =>
      obtain ⟨k', v'⟩ := p
      simp only [alistKeys, List.map_cons, List.mem_cons] at h
      push_neg at h
      simp only [alistGet, if_neg (Ne.symm h.1)]
      exact ih h.2

theorem mem_setAdd (acc : List String) (k u : String) :
    u ∈ setAdd acc k ↔ u ∈ acc ∨ u = k := by
  by_cases h : k ∈ acc
  · simp only [setAdd, if_pos h]
    constructor
    · exact Or.inl
    · rintro (hu | rfl) <;> [exact hu; exact h]
  · simp [setAdd, if_neg h]

theorem mem_foldl_setAdd (l acc : List String) (u : String) :
    u ∈ l.foldl setAdd acc ↔ u ∈ acc ∨ u ∈ l := by
  induction l generalizing acc with
  | nil => simp
  | cons k rest ih =>
      simp only [List.foldl_cons, List.mem_cons]
      rw [ih, mem_setAdd]
      tauto

theorem mem_jsSetOfList (l : List String) (u : String) :
    u ∈ jsSetOfList l ↔ u ∈ l := by
  simpa [jsSetOfList] using mem_foldl_setAdd l [] u

/-! ## Lemmas: the three aggregation maps -/

theorem mem_alistKeys_foldl {σ : Type} (key : σ → String)
    (f : List (String × Nat) → σ → Nat) (rows : List σ)
    (acc : List (String × Nat)) (u : String) :
    u ∈ alistKeys (rows.foldl (fun m s => alistSet m (key s) (f m s)) acc) ↔
      u ∈ alistKeys acc ∨ u ∈ rows.map key := by
  induction rows generalizing acc with
  | nil => simp
  | cons s rest ih =>
      simp only [List.foldl_cons, List.map_cons, List.mem_cons]
      rw [ih, mem_alistKeys_set]
      tauto

theorem alistGet_foldl_add {σ : Type} (key : σ → String) (w : σ → Nat)
    (rows : List σ) (acc : List (String × Nat)) (u : String) :
    (alistGet
        (rows.foldl
          (fun m s => alistSet m (key s) ((alistGet m (key s)).getD 0 + w s))
          acc)
        u).getD 0
      = (alistGet acc u).getD 0 +
        ((rows.filter (fun s => key s = u)).map w).sum := by
  induction rows generalizing acc with
  | nil => simp
  | cons s rest ih =>
      simp only [List.foldl_cons]
      rw [ih]
      by_cases h : key s = u
      · subst h
        rw [alistGet_set_self]
        simp [List.filter_cons, Nat.add_assoc]
      · rw [alistGet_set_ne _ _ _ _ (fun hh => h hh.symm)]
        simp [List.filter_cons, h]

theorem mem_alistKeys_buildFocusTimeMap (rows : List SessionRow)
    (u : String) :
    u ∈ alistKeys (buildFocusTimeMap rows) ↔
      u ∈ rows.map SessionRow.user_id := by
  simpa [alistKeys] using
    mem_alistKeys_foldl (fun s : SessionRow => s.user_id)
      (fun m s => (alistGet m s.user_id).getD 0 + s.duration.getD 0) rows [] u

theorem mem_alistKeys_buildTasksMap (rows : List TaskRow) (u : String) :
    u ∈ alistKeys (buildTasksMap rows) ↔ u ∈ rows.map TaskRow.user_id := by
  simpa [alistKeys] using
    mem_alistKeys_foldl (fun t : TaskRow => t.user_id)
      (fun m t => (alistGet m t.user_id).getD 0 + 1) rows [] u

theorem mem_alistKeys_buildStreakMap (rows : List StreakRow) (u : String) :
    u ∈ alistKeys (buildStreakMap rows) ↔
      u ∈ rows.map StreakRow.user_id := by
  simpa [alistKeys] using
    mem_alistKeys_foldl (fun s : StreakRow => s.user_id)
      (fun _ s => s.current.getD 0) rows [] u

theorem buildFocusTimeMap_value (rows : List SessionRow) (u : String) :
    (alistGet (buildFocusTimeMap rows) u).getD 0 = sumDurations u rows := by
  simpa [buildFocusTimeMap, sumDurations, alistGet] using
    alistGet_foldl_add (fun s : SessionRow => s.user_id)
      (fun s => s.duration.getD 0) rows [] u

theorem buildTasksMap_value (rows : List TaskRow) (u : String) :
    (alistGet (buildTasksMap rows) u).getD 0 =
      (rows.filter (fun t => t.user_id = u)).length := by
  have h := alistGet_foldl_add (fun t : TaskRow => t.user_id)
    (fun _ => 1) rows [] u
  simp only [alistGet, Option.getD_none, Nat.zero_add] at h
  rw [buildTasksMap]
  rw [h]
  simp [List.map_const', List.sum_replicate]

/-! ## Lemmas: stable descending sort -/

theorem perm_insertDesc (key : Entry → Nat) (e : Entry) (l : List Entry) :
    List.Perm (insertDesc key e l) (e :: l) := by
  induction l with
  | nil => exact List.Perm.refl _
  | cons x xs ih =>
      by_cases h : key e < key x
      · simp only [insertDesc, if_pos h]
        exact List.Perm.trans (ih.cons x) (List.Perm.swap e x xs)
      · simp only [insertDesc, if_neg h]
        exact List.Perm.refl _

theorem mem_insertDesc (key : Entry → Nat) (e : Entry) (l : List Entry)
    (y : Entry) : y ∈ insertDesc key e l ↔ y = e ∨ y ∈ l := by
  rw [(perm_insertDesc key e l).mem_iff]
  simp

theorem perm_sortDesc (key : Entry → Nat) (l : List Entry) :
    List.Perm (sortDesc key l) l := by
  induction l with
  | nil => exact List.Perm.refl _
  | cons e xs ih =>
      exact List.Perm.trans (perm_insertDesc key e (sortDesc key xs))
        (ih.cons e)

theorem pairwise_insertDesc (key : Entry → Nat) (e : Entry)
    (l : List Entry)
    (h : List.Pairwise (fun a b => key b ≤ key a) l) :
    List.Pairwise (fun a b => key b ≤ key a) (insertDesc key e l) := by
  induction l with
  | nil => simp [insertDesc]
  | cons x xs ih =>
      rcases List.pairwise_cons.mp h with ⟨hx, hxs⟩
      by_cases hlt : key e < key x
      · simp only [insertDesc, if_pos hlt]
        refine List.pairwise_cons.mpr ⟨?_, ih hxs⟩
        intro y hy
        rcases (mem_insertDesc key e xs y).mp hy with rfl | hy'
        · exact Nat.le_of_lt hlt
        · exact hx y hy'
      · simp only [insertDesc, if_neg hlt]
        refine List.pairwise_cons.mpr ⟨?_, h⟩
        intro y hy
        rcases List.mem_cons.mp hy with rfl | hy'
        · exact Nat.le_of_not_lt hlt
        · exact Nat.le_trans (hx y hy') (Nat.le_of_not_lt hlt)

theorem pairwise_sortDesc (key : Entry → Nat) (l : List Entry) :
    List.Pairwise (fun a b => key b ≤ key a) (sortDesc key l) := by
  induction l with
  | nil => simp [sortDesc]
  | cons e xs ih => exact pairwise_insertDesc key e (sortDesc key xs) ih

theorem sortDesc_of_const (key : Entry → Nat) (hk : ∀ e, key e = 0)
    (l : List Entry) : sortDesc key l = l := by
  induction l with
  | nil => rfl
  | cons e xs ih =>
      show insertDesc key e (sortDesc key xs) = e :: xs
      rw [ih]
      cases xs with
      | nil => rfl
      | cons x rest =>
          simp [insertDesc, hk]

/-! ## Lemmas: rank assignment -/

theorem assignRanksAux_map {α : Type} (f : Entry → α)
    (hf : ∀ e r, f { e with rank := r } = f e) (metric : String)
    (l : List Entry) :
    ∀ index cr pv,
      (assignRanksAux metric l index cr pv).map f = l.map f := by
  induction l with
  | nil => intro index cr pv; rfl
  | cons e rest ih =>
      intro index cr pv
      simp only [assignRanksAux, List.map_cons, hf]
      rw [ih]

theorem assignRanks_map {α : Type} (f : Entry → α)
    (hf : ∀ e r, f { e with rank := r } = f e) (metric : String)
    (l : List Entry) : (assignRanks metric l).map f = l.map f :=
  assignRanksAux_map f hf metric l 0 1 none

theorem assignRanksAux_rank_spec (metric : String) (l : List Entry) :
    ∀ index cr pv,
      (assignRanksAux metric l index cr (some pv)).map Entry.rank
        = specRanksGo pv cr (index + 1) (l.map (rankValue metric)) := by
  induction l with
  | nil => intro index cr pv; rfl
  | cons e rest ih =>
      intro index cr pv
      simp only [assignRanksAux, specRanksGo, List.map_cons]
      congr 1
      rw [ih (index + 1)]

theorem assignRanks_rank_spec (metric : String) (l : List Entry) :
    (assignRanks metric l).map Entry.rank
      = specRanks (l.map (rankValue metric)) := by
  cases l with
  | nil => rfl
  | cons e rest =>
      simp only [assignRanks, assignRanksAux, specRanks, List.map_cons]
      congr 1
      exact assignRanksAux_rank_spec metric rest 1 1 (rankValue metric e)

/-! ## Lemmas: the built entry list -/

theorem mkEntry_user_id (pm : List (String × Profile))
    (fm tm sm : List (String × Nat)) (u : String) :
    (mkEntry pm fm tm sm u).user_id = u := rfl

theorem builtEntries_map_user_id (start : Option Nat)
    (inp : LeaderboardInput) :
    (builtEntries start inp).map Entry.user_id
      = unionUserIds (buildFocusTimeMap (sessionsQuery start inp.sessions))
          (buildTasksMap (tasksQuery start inp.tasks))
          (buildStreakMap inp.streaks) := by
  rw [builtEntries, List.map_map]
  exact List.map_id'' (fun u => rfl) _

theorem eq_mkEntry_of_mem_builtEntries (start : Option Nat)
    (inp : LeaderboardInput) (e : Entry) (h : e ∈ builtEntries start inp) :
    e = mkEntry (buildProfilesMap inp.profiles)
          (buildFocusTimeMap (sessionsQuery start inp.sessions))
          (buildTasksMap (tasksQuery start inp.tasks))
          (buildStreakMap inp.streaks) e.user_id := by
  rcases List.mem_map.mp h with ⟨u, _, he⟩
  rw [← he]
  rfl

theorem mem_user_id_rankedEntries (metric : String) (start : Option Nat)
    (inp : LeaderboardInput) (u : String) :
    u ∈ (rankedEntries metric start inp).map Entry.user_id ↔
      u ∈ (sessionsQuery start inp.sessions).map SessionRow.user_id ∨
      u ∈ (tasksQuery start inp.tasks).map TaskRow.user_id ∨
      u ∈ inp.streaks.map StreakRow.user_id := by
  rw [rankedEntries, assignRanks_map Entry.user_id (fun e r => rfl) metric]
  rw [((perm_sortDesc (sortKey metric)
    (builtEntries start inp)).map Entry.user_id).mem_iff]
  rw [builtEntries_map_user_id, unionUserIds, mem_jsSetOfList]
  simp only [List.mem_append]
  rw [mem_alistKeys_buildFocusTimeMap, mem_alistKeys_buildTasksMap,
    mem_alistKeys_buildStreakMap]
  tauto

theorem builtEntries_focus_value (start : Option Nat)
    (inp : LeaderboardInput) (e : Entry) (h : e ∈ builtEntries start inp) :
    e.focus_time_minutes
      = mathRoundDiv60
          (sumDurations e.user_id (sessionsQuery start inp.sessions)) := by
  conv_lhs => rw [eq_mkEntry_of_mem_builtEntries start inp e h]
  show mathRoundDiv60
      ((alistGet (buildFocusTimeMap (sessionsQuery start inp.sessions))
        e.user_id).getD 0) = _
  rw [buildFocusTimeMap_value]

theorem builtEntries_default_focus (start : Option Nat)
    (inp : LeaderboardInput) (e : Entry) (h : e ∈ builtEntries start inp)
    (hu : e.user_id ∉
      (sessionsQuery start inp.sessions).map SessionRow.user_id) :
    e.focus_time_minutes = 0 := by
  rw [eq_mkEntry_of_mem_builtEntries start inp e h]
  show mathRoundDiv60
      ((alistGet (buildFocusTimeMap (sessionsQuery start inp.sessions))
        e.user_id).getD 0) = 0
  rw [alistGet_eq_none _ _
    (fun hk => hu ((mem_alistKeys_buildFocusTimeMap _ _).mp hk))]
  rfl

theorem builtEntries_default_tasks (start : Option Nat)
    (inp : LeaderboardInput) (e : Entry) (h : e ∈ builtEntries start inp)
    (hu : e.user_id ∉ (tasksQuery start inp.tasks).map TaskRow.user_id) :
    e.tasks_completed = 0 := by
  rw [eq_mkEntry_of_mem_builtEntries start inp e h]
  show (alistGet (buildTasksMap (tasksQuery start inp.tasks))
      e.user_id).getD 0 = 0
  rw [alistGet_eq_none _ _
    (fun hk => hu ((mem_alistKeys_buildTasksMap _ _).mp hk))]
  rfl

theorem builtEntries_default_streak (start : Option Nat)
    (inp : LeaderboardInput) (e : Entry) (h : e ∈ builtEntries start inp)
    (hu : e.user_id ∉ inp.streaks.map StreakRow.user_id) :
    e.current_streak = 0 := by
  rw [eq_mkEntry_of_mem_builtEntries start inp e h]
  show (alistGet (buildStreakMap inp.streaks) e.user_id).getD 0 = 0
  rw [alistGet_eq_none _ _
    (fun hk => hu ((mem_alistKeys_buildStreakMap _ _).mp hk))]
  rfl

/-! ## Lemmas: sortedness through the pipeline -/

theorem pairwise_sortKey_rankedEntries (metric : String)
    (start : Option Nat) (inp : LeaderboardInput) :
    List.Pairwise (fun a b => sortKey metric b ≤ sortKey metric a)
      (rankedEntries metric start inp) := by
  have hmap : (rankedEntries metric start inp).map (sortKey metric)
      = (sortDesc (sortKey metric) (builtEntries start inp)).map
          (sortKey metric) :=
    assignRanks_map (sortKey metric) (fun e r => rfl) metric _
  have h2 : List.Pairwise (fun x y : Nat => y ≤ x)
      ((sortDesc (sortKey metric) (builtEntries start inp)).map
        (sortKey metric)) :=
    List.pairwise_map.mpr
      (pairwise_sortDesc (sortKey metric) (builtEntries start inp))
  rw [← hmap] at h2
  exact List.pairwise_map.mp h2

theorem pairwise_sortKey_computeLeaderboard (period metric : String)
    (limit offset : Nat) (now : Now) (inp : LeaderboardInput) :
    List.Pairwise (fun a b => sortKey metric b ≤ sortKey metric a)
      (computeLeaderboard period metric limit offset now inp).entries :=
  (pairwise_sortKey_rankedEntries metric (getDateRange period now)
    inp).sublist
    (List.Sublist.trans (List.take_sublist _ _) (List.drop_sublist _ _))

theorem foldl_add_eq_sum {σ : Type} (f : σ → Nat) (l : List σ)
    (init : Nat) :
    l.foldl (fun acc s => acc + f s) init = init + (l.map f).sum := by
  induction l generalizing init with
  | nil => simp
  | cons s rest ih => simp [ih, Nat.add_assoc]

/-! ## The claims -/

/-- C1: the leaderboard rank assignment implements standard competition
ranking — over every entry sequence its rank list equals the spec-side
`specRanks` of the metric-value list (first entry rank 1, a differing
value takes its 1-based position, a tied value inherits the preceding
rank); in particular metric values [10,10,8,5,5] yield ranks
[1,1,3,4,4]. -/
theorem spec_C1 :
    (∀ (metric : String) (entries : List Entry),
        (assignRanks metric entries).map Entry.rank
          = specRanks (entries.map (rankValue metric)))
    ∧ (rankedEntries "streak" none sampleInput).map Entry.current_streak
        = [10, 10, 8, 5, 5]
    ∧ (rankedEntries "streak" none sampleInput).map Entry.rank
        = [1, 1, 3, 4, 4] :=
  ⟨assignRanks_rank_spec, by decide, by decide⟩

/-- C2: for every valid (period, metric) pair and every input data set,
the returned leaderboard entries are sorted in non-increasing order of
the selected metric's value. -/
theorem spec_C2 (period metric : String) (limit offset : Nat) (now : Now)
    (inp : LeaderboardInput)
    (_hp : period = "today" ∨ period = "week" ∨ period = "month" ∨
      period = "all")
    (hm : metric = "focus_time" ∨ metric = "tasks" ∨ metric = "streak") :
    List.Pairwise (fun a b => rankValue metric b ≤ rankValue metric a)
      (computeLeaderboard period metric limit offset now inp).entries := by
  have heq : ∀ e, rankValue metric e = sortKey metric e := by
    rcases hm with rfl | rfl | rfl <;> intro e <;> simp [rankValue, sortKey]
  exact (pairwise_sortKey_computeLeaderboard period metric limit offset now
    inp).imp (fun hab => by rw [heq, heq]; exact hab)

theorem spec_C2_witness :
    List.Pairwise (fun a b => rankValue "streak" b ≤ rankValue "streak" a)
      (computeLeaderboard "all" "streak" 100 0 sampleNow
        sampleInput).entries :=
  spec_C2 "all" "streak" 100 0 sampleNow sampleInput
    (Or.inr (Or.inr (Or.inr rfl))) (Or.inr (Or.inr rfl))

/-- C3: the user ids of the (unpaginated) leaderboard result are exactly
the union of the ids in the window-filtered work sessions, the
window-filtered done tasks and the streak rows; and in a built entry,
each metric for which the user has no records defaults to 0. -/
theorem spec_C3 (metric : String) (start : Option Nat)
    (inp : LeaderboardInput) :
    (∀ u, u ∈ (rankedEntries metric start inp).map Entry.user_id ↔
        u ∈ (sessionsQuery start inp.sessions).map SessionRow.user_id ∨
        u ∈ (tasksQuery start inp.tasks).map TaskRow.user_id ∨
        u ∈ inp.streaks.map StreakRow.user_id)
    ∧ (∀ e ∈ builtEntries start inp,
        (e.user_id ∉
            (sessionsQuery start inp.sessions).map SessionRow.user_id →
          e.focus_time_minutes = 0)
        ∧ (e.user_id ∉ (tasksQuery start inp.tasks).map TaskRow.user_id →
            e.tasks_completed = 0)
        ∧ (e.user_id ∉ inp.streaks.map StreakRow.user_id →
            e.current_streak = 0)) := by
  refine ⟨fun u => mem_user_id_rankedEntries metric start inp u,
    fun e he => ⟨fun hu => ?_, fun hu => ?_, fun hu => ?_⟩⟩
  · exact builtEntries_default_focus start inp e he hu
  · exact builtEntries_default_tasks start inp e he hu
  · exact builtEntries_default_streak start inp e he hu

theorem spec_C3_witness :
    ((⟨"a", none, none, 0, 0, 10, 0⟩ : Entry) ∈ builtEntries none
      sampleInput)
    ∧ (⟨"a", none, none, 0, 0, 10, 0⟩ : Entry).focus_time_minutes = 0 :=
  ⟨by decide,
    ((spec_C3 "streak" none sampleInput).2 ⟨"a", none, none, 0, 0, 10, 0⟩
      (by decide)).1 (by decide)⟩

/-- C4: a built entry's focus minutes are the raw in-window work-session
seconds of that user summed first and converted with a single
round-to-nearest at the end; in particular three 50-second events sum to
150 s and round to 3 minutes. -/
theorem spec_C4 :
    (∀ (start : Option Nat) (inp : LeaderboardInput) (e : Entry),
        e ∈ builtEntries start inp →
          e.focus_time_minutes
            = mathRoundDiv60
                (sumDurations e.user_id (sessionsQuery start inp.sessions)))
    ∧ sumDurations "u" (sessionsQuery none focusInput.sessions) = 150
    ∧ (builtEntries none focusInput).map Entry.focus_time_minutes = [3] :=
  ⟨fun start inp e h => builtEntries_focus_value start inp e h,
    by decide, by decide⟩

theorem spec_C4_witness :
    ((⟨"u", none, none, 3, 0, 0, 0⟩ : Entry) ∈ builtEntries none focusInput)
    ∧ (⟨"u", none, none, 3, 0, 0, 0⟩ : Entry).focus_time_minutes
        = mathRoundDiv60
            (sumDurations "u" (sessionsQuery none focusInput.sessions)) :=
  ⟨by decide, spec_C4.1 none focusInput ⟨"u", none, none, 3, 0, 0, 0⟩
    (by decide)⟩

/-- C5 counterexample: over the 5-entry ranked result of `sampleInput`,
the request offset=2, limit=2 returns 2 entries — not the three entries
at positions 3–5 of the full ranked sequence, as the claim's example
states. -/
theorem spec_C5_counterexample :
    (computeLeaderboard "all" "streak" 2 2 sampleNow sampleInput).total = 5
    ∧ (computeLeaderboard "all" "streak" 2 2 sampleNow
        sampleInput).entries.length = 2
    ∧ (computeLeaderboard "all" "streak" 2 2 sampleNow sampleInput).entries
        ≠ (rankedEntries "streak" none sampleInput).drop 2 :=
  ⟨by decide, by decide, by decide⟩

/-- C5 (amended): pagination is a contiguous slice taken after ranking
the full sequence — the returned entries are
`(ranked.drop offset).take limit`, every returned entry equals the entry
at its global position of the unsliced ranked sequence, and `total` is
the unsliced length; in particular over the 5-entry ranked result,
offset=0,limit=2 returns entries 1–2 (ranks 1,1) and offset=2,limit=2
returns entries 3–4 (ranks 3,4), with ranks from the full sequence. -/
theorem spec_C5 :
    (∀ (period metric : String) (limit offset : Nat) (now : Now)
        (inp : LeaderboardInput),
        (computeLeaderboard period metric limit offset now inp).entries
          = ((rankedEntries metric (getDateRange period now) inp).drop
              offset).take limit
        ∧ (computeLeaderboard period metric limit offset now inp).total
          = (rankedEntries metric (getDateRange period now) inp).length)
    ∧ (∀ (period metric : String) (limit offset : Nat) (now : Now)
        (inp : LeaderboardInput) (i : Nat), i < limit →
        (computeLeaderboard period metric limit offset now inp).entries[i]?
          = (rankedEntries metric (getDateRange period now) inp)[offset + i]?)
    ∧ ((computeLeaderboard "all" "streak" 2 0 sampleNow
          sampleInput).entries.map Entry.rank = [1, 1]
        ∧ (computeLeaderboard "all" "streak" 2 2 sampleNow
            sampleInput).entries.map Entry.rank = [3, 4]
        ∧ (computeLeaderboard "all" "streak" 2 0 sampleNow
            sampleInput).total = 5
        ∧ (computeLeaderboard "all" "streak" 2 2 sampleNow
            sampleInput).total = 5) := by
  refine ⟨fun period metric limit offset now inp => ⟨rfl, rfl⟩,
    fun period metric limit offset now inp i hi => ?_,
    by decide, by decide, by decide, by decide⟩
  show (((rankedEntries metric (getDateRange period now) inp).drop
      offset).take limit)[i]? = _
  rw [List.getElem?_take, if_pos hi, List.getElem?_drop]

theorem spec_C5_witness :
    (0 : Nat) < 2
    ∧ (computeLeaderboard "all" "streak" 2 2 sampleNow
        sampleInput).entries[0]?
      = (rankedEntries "streak" (getDateRange "all" sampleNow)
          sampleInput)[2 + 0]? :=
  ⟨by decide, spec_C5.2.1 "all" "streak" 2 2 sampleNow sampleInput 0
    (by decide)⟩

/-- C6: for every metric value outside the three known ones, the sort
comparator returns 0 on every comparison, so the sort leaves the list
unchanged and the ranked result keeps the union-traversal entry order
(the request is processed, not rejected). -/
theorem spec_C6 (metric : String) (h1 : metric ≠ "focus_time")
    (h2 : metric ≠ "tasks") (h3 : metric ≠ "streak") :
    (∀ e, sortKey metric e = 0)
    ∧ (∀ l, sortDesc (sortKey metric) l = l)
    ∧ (∀ (start : Option Nat) (inp : LeaderboardInput),
        (rankedEntries metric start inp).map Entry.user_id
          = (builtEntries start inp).map Entry.user_id) := by
  have hk : ∀ e, sortKey metric e = 0 := by
    intro e
    simp [sortKey, h1, h2, h3]
  refine ⟨hk, fun l => sortDesc_of_const _ hk l, fun start inp => ?_⟩
  rw [rankedEntries, assignRanks_map Entry.user_id (fun e r => rfl) metric,
    sortDesc_of_const _ hk]

theorem spec_C6_witness :
    (rankedEntries "bogus" none sampleInput).map Entry.user_id
      = (builtEntries none sampleInput).map Entry.user_id :=
  (spec_C6 "bogus" (by decide) (by decide) (by decide)).2.2 none
    sampleInput

/-- C7: the CSV exporter always emits the header row (even for an empty
entry list) with the fixed column order, renders the literal `Unknown`
in the Name column for entries with an absent name, and is
deterministic — identical input lists yield identical CSV bodies. -/
theorem spec_C7 :
    (exportCsv []
        = "Rank,Name,Focus Time (min),Tasks Completed,Current Streak\n")
    ∧ (∀ entries : List Entry, ∃ body, exportCsv entries
        = "Rank,Name,Focus Time (min),Tasks Completed,Current Streak\n"
          ++ body)
    ∧ (∀ e : Entry, e.name = none →
        csvEntryFields e
          = [toString e.rank, "Unknown", toString e.focus_time_minutes,
              toString e.tasks_completed, toString e.current_streak])
    ∧ (∀ l₁ l₂ : List Entry, l₁ = l₂ → exportCsv l₁ = exportCsv l₂) := by
  have hh : csvRecord csvColumns
      = "Rank,Name,Focus Time (min),Tasks Completed,Current Streak\n" :=
    by decide
  refine ⟨by decide,
    fun entries =>
      ⟨String.join (entries.map (fun e => csvRecord (csvEntryFields e))),
        by rw [exportCsv, hh]⟩,
    fun e he => ?_, fun l₁ l₂ h => by rw [h]⟩
  simp [csvEntryFields, nameOrUnknown, he]

theorem spec_C7_witness :
    csvEntryFields ⟨"u", none, none, 3, 0, 0, 1⟩
      = ["1", "Unknown", "3", "0", "0"] := by
  rw [spec_C7.2.2.1 ⟨"u", none, none, 3, 0, 0, 1⟩ rfl]
  decide

/-- C8: session validation returns the decoded claims exactly when the
token is well formed, its signature verifies and its expiry has not
passed; an expired, malformed or badly signed token all map to the same
uniform failure value `none` — in particular a token whose expiry has
passed is rejected even with a valid signature. -/
theorem spec_C8 (now : Nat) (t : JWTToken) :
    (t.malformed = false → t.signatureValid = true →
      now < t.payload.exp → verifySession now t = some t.payload)
    ∧ (t.payload.exp ≤ now → verifySession now t = none)
    ∧ (t.malformed = true → verifySession now t = none)
    ∧ (t.signatureValid = false → verifySession now t = none) := by
  refine ⟨fun h1 h2 h3 => ?_, fun h => ?_, fun h => ?_, fun h => ?_⟩
  · simp [verifySession, jwtVerify, h1, h2, h3]
  · simp [verifySession, jwtVerify, Nat.not_lt.mpr h]
  · simp [verifySession, jwtVerify, h]
  · simp [verifySession, jwtVerify, h]

theorem spec_C8_witness :
    verifySession 50 ⟨false, true, ⟨"admin", 0, 100⟩⟩
        = some ⟨"admin", 0, 100⟩
    ∧ verifySession 200 ⟨false, true, ⟨"admin", 0, 100⟩⟩ = none :=
  ⟨(spec_C8 50 ⟨false, true, ⟨"admin", 0, 100⟩⟩).1 rfl rfl (by decide),
    (spec_C8 200 ⟨false, true, ⟨"admin", 0, 100⟩⟩).2.1 (by decide)⟩

/-- C9: the dashboard's totalFocusMinutes sums floor(duration / 60)
per work session (truncation before summing), a different aggregation
rule from the leaderboard's sum-seconds-then-round-once conversion: the
three 50-second sessions give 0 dashboard minutes but a leaderboard
focus value of 3. -/
theorem spec_C9 :
    (∀ rows : List SessionRow,
        dashboardTotalFocusMinutes rows
          = ((rows.filter (fun s => s.mode = "work")).map
              (fun s => s.duration.getD 0 / 60)).sum)
    ∧ dashboardTotalFocusMinutes focusSessions = 0
    ∧ (builtEntries none focusInput).map Entry.focus_time_minutes = [3] :=
  ⟨fun rows => by
      rw [dashboardTotalFocusMinutes,
        foldl_add_eq_sum (fun s : SessionRow => s.duration.getD 0 / 60)]
      simp,
    by decide, by decide⟩

/-- C10: for every period string outside today/week/month — not just
"all" — window resolution returns no lower bound, and the leaderboard
result is the all-time result (with the period echoed back), rather than
the request being rejected. -/
theorem spec_C10 (period : String) (now : Now) (h1 : period ≠ "today")
    (h2 : period ≠ "week") (h3 : period ≠ "month") :
    getDateRange period now = none
    ∧ ∀ (metric : String) (limit offset : Nat) (inp : LeaderboardInput),
        computeLeaderboard period metric limit offset now inp
          = { computeLeaderboard "all" metric limit offset now inp with
              period := period } := by
  have hgr : getDateRange period now = none := by
    simp [getDateRange, h1, h2, h3]
  have hall : getDateRange "all" now = none := rfl
  exact ⟨hgr, fun metric limit offset inp => by
    simp [computeLeaderboard, hgr, hall]⟩

theorem spec_C10_witness :
    getDateRange "bogus" sampleNow = none
    ∧ computeLeaderboard "bogus" "streak" 2 0 sampleNow sampleInput
        = { computeLeaderboard "all" "streak" 2 0 sampleNow sampleInput with
            period := "bogus" } :=
  ⟨(spec_C10 "bogus" sampleNow (by decide) (by decide) (by decide)).1,
    (spec_C10 "bogus" sampleNow (by decide) (by decide) (by decide)).2
      "streak" 2 0 sampleInput⟩

end StudyBro
